import Mathlib

/-!
Shallow embedding of the mesh-generation code of the react-three-test
repository: the icosphere Planet generator (slerp, getK, getVertexIndex,
processSubFace), the quad StitchedFace index generator, and the heightmap
sampler.  JavaScript floating-point numbers are idealized as real numbers;
Math.round and Number.toFixed are modelled as round-half-up on the reals.
-/

/-- Points of three-dimensional space, the THREE.Vector3 values of the code. -/
abbrev E3 : Type := ℝ × ℝ × ℝ

/-- Componentwise scalar multiplication (Vector3.multiplyScalar). -/
def smul3 (s : ℝ) (v : E3) : E3 := (s * v.1, s * v.2.1, s * v.2.2)

/-- Componentwise vector addition (Vector3.add). -/
def vadd3 (a b : E3) : E3 := (a.1 + b.1, a.2.1 + b.2.1, a.2.2 + b.2.2)

/-- Componentwise vector subtraction (Vector3.sub). -/
def vsub3 (a b : E3) : E3 := (a.1 - b.1, a.2.1 - b.2.1, a.2.2 - b.2.2)

/-- Dot product (Vector3.dot). -/
def dot3 (a b : E3) : ℝ := a.1 * b.1 + a.2.1 * b.2.1 + a.2.2 * b.2.2

/-- Euclidean distance (Vector3.distanceTo). -/
noncomputable def dist3 (a b : E3) : ℝ :=
  Real.sqrt ((a.1 - b.1) ^ 2 + (a.2.1 - b.2.1) ^ 2 + (a.2.2 - b.2.2) ^ 2)

/-- Vector length (Vector3.length). -/
noncomputable def norm3 (v : E3) : ℝ := Real.sqrt (dot3 v v)

/-- Vector3.normalize: divide by the length, or by one when the length is zero
(THREE.js uses divideScalar(length or 1)). -/
noncomputable def normalize3 (v : E3) : E3 :=
  smul3 (1 / (if norm3 v = 0 then 1 else norm3 v)) v

/-- Vector3.lerp: a + t * (b - a), componentwise. -/
def lerp3 (a b : E3) (t : ℝ) : E3 := vadd3 a (smul3 t (vsub3 b a))

/-- JavaScript Math.round: round half toward positive infinity. -/
noncomputable def jsRound (x : ℝ) : ℤ := ⌊x + 1 / 2⌋

/-- The clamp Math.max(0, Math.min(1, x)) used by getK. -/
noncomputable def clamp01 (x : ℝ) : ℝ := max 0 (min 1 x)

/-- The LOD resolver getK of the Planet component (proximity mode,
src/unnamed/part_003 lines 149-171).  worldV is radius * v + planetCenter,
t_dist clamps dist/(radius*2) to [0,1], detailFactor = (1 - t_dist)^stepGamma,
levelIndex = min(steps-1, floor(detailFactor*steps)); the level is mapped
linearly onto [minDetail, maxDetail], rounded, and clamped to at least 1. -/
noncomputable def getK (radius minDetail maxDetail : ℝ) (steps : ℤ) (stepGamma : ℝ)
    (planetCenter target v : E3) : ℤ :=
  max 1 (jsRound
    (if steps ≤ 1 then maxDetail
     else
       minDetail +
         ((min (steps - 1)
             ⌊(1 - clamp01 (dist3 (vadd3 (smul3 radius v) planetCenter) target /
                 (radius * 2))) ^ stepGamma * (steps : ℝ)⌋ : ℤ) : ℝ) *
           ((maxDetail - minDetail) / ((steps : ℝ) - 1))))

lemma dist3_nonneg (a b : E3) : 0 ≤ dist3 a b := Real.sqrt_nonneg _

lemma clamp01_nonneg (x : ℝ) : 0 ≤ clamp01 x := le_max_left 0 _

lemma clamp01_le_one (x : ℝ) : clamp01 x ≤ 1 :=
  max_le zero_le_one (min_le_left 1 x)

lemma clamp01_mono {x y : ℝ} (h : x ≤ y) : clamp01 x ≤ clamp01 y :=
  max_le_max le_rfl (min_le_min le_rfl h)

lemma clamp01_of_nonpos {x : ℝ} (h : x ≤ 0) : clamp01 x = 0 := by
  unfold clamp01
  rw [min_eq_right (le_trans h zero_le_one), max_eq_left h]

lemma jsRound_mono {x y : ℝ} (h : x ≤ y) : jsRound x ≤ jsRound y :=
  Int.floor_le_floor (by linarith)

/-- C1: with minResolution 4, maxResolution 12, stepCount 4, stepGamma 2,
radius 10 and the LOD target at the sphere pole (0,10,0), the resolved
subdivision level at the pole point (0,1,0) is 12 (the maximum) and at the
antipodal point (0,-1,0) it is 4 (the minimum). -/
theorem C1_getK_pole_and_antipode :
    getK 10 4 12 4 2 (0, 0, 0) (0, 10, 0) (0, 1, 0) = 12 ∧
    getK 10 4 12 4 2 (0, 0, 0) (0, 10, 0) (0, -1, 0) = 4 := by
  constructor
  · have hd : dist3 (vadd3 (smul3 10 ((0 : ℝ), 1, 0)) (0, 0, 0)) (0, 10, 0) = 0 := by
      simp [dist3, vadd3, smul3]
    have hc : clamp01 (dist3 (vadd3 (smul3 10 ((0 : ℝ), 1, 0)) (0, 0, 0)) (0, 10, 0) /
        ((10 : ℝ) * 2)) = 0 := by
      rw [hd]
      norm_num [clamp01]
    have hp : ((1 : ℝ) - 0) ^ (2 : ℝ) = 1 := by
      norm_num [Real.one_rpow]
    unfold getK
    rw [hc, hp]
    have hfl : ⌊(1 : ℝ) * ((4 : ℤ) : ℝ)⌋ = 4 := by
      norm_num
    rw [hfl]
    norm_num [jsRound]
  · have hd : dist3 (vadd3 (smul3 10 ((0 : ℝ), -1, 0)) (0, 0, 0)) (0, 10, 0) = 20 := by
      unfold dist3 vadd3 smul3
      norm_num
      rw [show (400 : ℝ) = 20 ^ 2 by norm_num]
      exact Real.sqrt_sq (by norm_num)
    have hc : clamp01 (dist3 (vadd3 (smul3 10 ((0 : ℝ), -1, 0)) (0, 0, 0)) (0, 10, 0) /
        ((10 : ℝ) * 2)) = 1 := by
      rw [hd]
      norm_num [clamp01]
    have hp : ((1 : ℝ) - 1) ^ (2 : ℝ) = 0 := by
      norm_num
    unfold getK
    rw [hc, hp]
    have hfl : ⌊(0 : ℝ) * ((4 : ℤ) : ℝ)⌋ = 0 := by norm_num
    rw [hfl]
    norm_num [jsRound]

/-- One rounded coordinate of the deduplication key: Number.toFixed(6)
rounds the magnitude to six decimal places (half away from zero) and keeps
the sign character, so the key component is the rounded magnitude together
with the sign. -/
noncomputable def fixed6 (x : ℝ) : ℤ × Bool :=
  (⌊|x| * 1000000 + 1 / 2⌋, decide (x < 0))

/-- Key type of the vertexMap of the Planet generator. -/
abbrev VKey : Type := (ℤ × Bool) × (ℤ × Bool) × (ℤ × Bool)

/-- The canonical deduplication key of getVertexIndex: the three coordinates
of the unit-sphere vertex, each formatted with toFixed(6)
(src/unnamed/part_003 lines 178-179). -/
noncomputable def vertexKey (v : E3) : VKey := (fixed6 v.1, fixed6 v.2.1, fixed6 v.2.2)

/-- The mutable buffers of one generation pass: the flat vertex position
array and the key-to-index map. -/
structure MeshState where
  vertices : List ℝ
  vertexMap : List (VKey × ℕ)

/-- getVertexIndex of the Planet generator (src/unnamed/part_003 lines
177-197): look the key of v up; on a hit return the existing index, on a
miss append the displaced, radius-scaled position and record the key.  The
displacement sampler (sampleHeight of the cylindrical UV, times
displacementScale, or zero without a heightmap) is passed as disp. -/
noncomputable def getVertexIndex (radius : ℝ) (disp : E3 → ℝ) (v : E3)
    (st : MeshState) : ℕ × MeshState :=
  match st.vertexMap.lookup (vertexKey v) with
  | some i => (i, st)
  | none =>
      (st.vertices.length / 3,
        ⟨st.vertices ++ [v.1 * (radius + disp v), v.2.1 * (radius + disp v),
            v.2.2 * (radius + disp v)],
          (vertexKey v, st.vertices.length / 3) :: st.vertexMap⟩)

/-- C7 counterexample: with a malformed configuration violating all three
preconditions at once (radius -10 <= 0, minResolution 12 > maxResolution 4,
stepCount 0 <= 0) the generator does not fail: the LOD resolver computes the
ordinary subdivision level 4 and interning a vertex appends an ordinary
position, so geometry is generated silently. -/
theorem C7_no_failfast_cex :
    getK (-10) 12 4 0 2 (0, 0, 0) (0, 10, 0) (0, 1, 0) = 4 ∧
    ((getVertexIndex (-10) (fun _ => 0) ((0 : ℝ), 1, 0) ⟨[], []⟩).2.vertices.length = 3) := by
  constructor
  · unfold getK
    rw [if_pos (by norm_num : (0 : ℤ) ≤ 1)]
    norm_num [jsRound]
  · simp [getVertexIndex, List.lookup]

/-- C7 amended: the generation pipeline performs no configuration
validation at all; for every configuration, malformed ones included, the
LOD resolver totally computes a level clamped to at least 1 and the vertex
interner totally extends (or keeps) its buffers, so a mesh is produced
silently. -/
theorem C7_generation_never_fails (radius minD maxD : ℝ) (steps : ℤ) (gamma : ℝ)
    (center target v : E3) (disp : E3 → ℝ) (st : MeshState) :
    1 ≤ getK radius minD maxD steps gamma center target v ∧
    st.vertices.length ≤ (getVertexIndex radius disp v st).2.vertices.length := by
  refine ⟨le_max_left 1 _, ?_⟩
  unfold getVertexIndex
  cases h : st.vertexMap.lookup (vertexKey v) with
  | none => simp
  | some i => simp

/-- C8: the LOD resolver is monotone in target proximity.  For a fixed
surface point v (with fixed radius, center and shaping parameters with
minResolution <= maxResolution, stepCount >= 1, stepGamma > 0), moving the
target strictly closer to the world-space point never decreases the
resolved subdivision level. -/
theorem C8_getK_monotone (radius minD maxD : ℝ) (steps : ℤ) (gamma : ℝ)
    (center t1 t2 v : E3) (hres : minD ≤ maxD) (hsteps : 1 ≤ steps) (hg : 0 < gamma)
    (hcloser : dist3 (vadd3 (smul3 radius v) center) t2
      < dist3 (vadd3 (smul3 radius v) center) t1) :
    getK radius minD maxD steps gamma center t1 v
      ≤ getK radius minD maxD steps gamma center t2 v := by
  unfold getK
  by_cases hs : steps ≤ 1
  · rw [if_pos hs, if_pos hs]
  · rw [if_neg hs, if_neg hs]
    have hs2 : (2 : ℤ) ≤ steps := by omega
    have hsR : (2 : ℝ) ≤ (steps : ℝ) := by exact_mod_cast hs2
    have hcl : clamp01 (dist3 (vadd3 (smul3 radius v) center) t2 / (radius * 2))
        ≤ clamp01 (dist3 (vadd3 (smul3 radius v) center) t1 / (radius * 2)) := by
      rcases le_or_lt radius 0 with h | h
      · have hr2 : radius * 2 ≤ 0 := by linarith
        have e1 : dist3 (vadd3 (smul3 radius v) center) t1 / (radius * 2) ≤ 0 :=
          div_nonpos_iff.mpr (Or.inl ⟨dist3_nonneg _ _, hr2⟩)
        have e2 : dist3 (vadd3 (smul3 radius v) center) t2 / (radius * 2) ≤ 0 :=
          div_nonpos_iff.mpr (Or.inl ⟨dist3_nonneg _ _, hr2⟩)
        rw [clamp01_of_nonpos e1, clamp01_of_nonpos e2]
      · exact clamp01_mono ((div_le_div_iff_of_pos_right (by linarith)).mpr hcloser.le)
    have h0 : 0 ≤ 1 - clamp01 (dist3 (vadd3 (smul3 radius v) center) t1 / (radius * 2)) := by
      linarith [clamp01_le_one (dist3 (vadd3 (smul3 radius v) center) t1 / (radius * 2))]
    have hrp : (1 - clamp01 (dist3 (vadd3 (smul3 radius v) center) t1 / (radius * 2))) ^ gamma
        ≤ (1 - clamp01 (dist3 (vadd3 (smul3 radius v) center) t2 / (radius * 2))) ^ gamma :=
      Real.rpow_le_rpow h0 (by linarith) hg.le
    have hfl : ⌊(1 - clamp01 (dist3 (vadd3 (smul3 radius v) center) t1 / (radius * 2))) ^ gamma
          * (steps : ℝ)⌋
        ≤ ⌊(1 - clamp01 (dist3 (vadd3 (smul3 radius v) center) t2 / (radius * 2))) ^ gamma
          * (steps : ℝ)⌋ :=
      Int.floor_le_floor (mul_le_mul_of_nonneg_right hrp (by linarith))
    have hmin := min_le_min (le_refl (steps - 1)) hfl
    have hstep : (0 : ℝ) ≤ (maxD - minD) / ((steps : ℝ) - 1) :=
      div_nonneg (by linarith) (by linarith)
    refine max_le_max le_rfl (jsRound_mono ?_)
    exact add_le_add_left
      (mul_le_mul_of_nonneg_right (by exact_mod_cast hmin) hstep) minD

/-- Witness for C8 at a concrete input: the surface point (0,1,0) on the
radius-10 sphere, with the target moved from (0,-10,0) to the strictly
closer (0,10,0). -/
theorem C8_getK_monotone_w :
    getK 10 4 12 4 2 (0, 0, 0) ((0 : ℝ), -10, 0) (0, 1, 0)
      ≤ getK 10 4 12 4 2 (0, 0, 0) ((0 : ℝ), 10, 0) (0, 1, 0) :=
  C8_getK_monotone 10 4 12 4 2 (0, 0, 0) ((0 : ℝ), -10, 0) ((0 : ℝ), 10, 0) ((0 : ℝ), 1, 0)
    (by norm_num) (by norm_num) (by norm_num)
    (by
      have h1 : dist3 (vadd3 (smul3 10 ((0 : ℝ), 1, 0)) (0, 0, 0)) ((0 : ℝ), 10, 0) = 0 := by
        simp [dist3, vadd3, smul3]
      have h2 : dist3 (vadd3 (smul3 10 ((0 : ℝ), 1, 0)) (0, 0, 0)) ((0 : ℝ), -10, 0) = 20 := by
        unfold dist3 vadd3 smul3
        norm_num
        rw [show (400 : ℝ) = 20 ^ 2 by norm_num]
        exact Real.sqrt_sq (by norm_num)
      rw [h1, h2]
      norm_num)

/-- C4 counterexample: interning the unit-sphere vertex (1,0,0) with radius
10 and zero displacement stores the world position (10,0,0) but records the
key computed from the raw unit coordinates (1,0,0); that key differs from
the key of the stored world-space position, so the lookup key is not
derived from world units after radius scaling and displacement. -/
theorem C4_key_not_world_cex :
    (getVertexIndex 10 (fun _ => 0) ((1 : ℝ), 0, 0) ⟨[], []⟩).2.vertices = [10, 0, 0] ∧
    (getVertexIndex 10 (fun _ => 0) ((1 : ℝ), 0, 0) ⟨[], []⟩).2.vertexMap
      = [(vertexKey ((1 : ℝ), 0, 0), 0)] ∧
    vertexKey ((1 : ℝ), 0, 0) ≠ vertexKey ((10 : ℝ), 0, 0) := by
  refine ⟨?_, ?_, ?_⟩
  · simp [getVertexIndex, List.lookup]
  · simp [getVertexIndex, List.lookup]
  · intro h
    have h1 : fixed6 ((1 : ℝ)) = fixed6 ((10 : ℝ)) := congrArg (fun k => k.1) h
    have e1 : (⌊|(1 : ℝ)| * 1000000 + 1 / 2⌋ : ℤ) = 1000000 := by
      rw [abs_of_pos (by norm_num : (0 : ℝ) < 1)]
      norm_num
    have e10 : (⌊|(10 : ℝ)| * 1000000 + 1 / 2⌋ : ℤ) = 10000000 := by
      rw [abs_of_pos (by norm_num : (0 : ℝ) < 10)]
      norm_num
    have := congrArg (fun p => p.1) h1
    simp only [fixed6] at this
    rw [e1, e10] at this
    norm_num at this

/-- C4 amended: the deduplication key is computed from the unit-sphere
coordinates of the vertex, before radius scaling and before displacement;
scaling and displacement are applied only to the stored position.  On a
fresh key the interner appends the scaled, displaced position and records
the pre-scale key, and re-interning the same unit vector afterwards, even
with a different radius or displacement sampler, returns the same index
without touching the buffers. -/
theorem C4_key_from_unit_vector (radius : ℝ) (disp : E3 → ℝ) (v : E3) (st : MeshState)
    (h : st.vertexMap.lookup (vertexKey v) = none) :
    (getVertexIndex radius disp v st).1 = st.vertices.length / 3 ∧
    (getVertexIndex radius disp v st).2.vertices
      = st.vertices ++ [v.1 * (radius + disp v), v.2.1 * (radius + disp v),
          v.2.2 * (radius + disp v)] ∧
    (getVertexIndex radius disp v st).2.vertexMap
      = (vertexKey v, st.vertices.length / 3) :: st.vertexMap ∧
    ∀ radius2 disp2, getVertexIndex radius2 disp2 v (getVertexIndex radius disp v st).2
      = ((getVertexIndex radius disp v st).1, (getVertexIndex radius disp v st).2) := by
  have hstep : getVertexIndex radius disp v st
      = (st.vertices.length / 3,
          ⟨st.vertices ++ [v.1 * (radius + disp v), v.2.1 * (radius + disp v),
              v.2.2 * (radius + disp v)],
            (vertexKey v, st.vertices.length / 3) :: st.vertexMap⟩) := by
    unfold getVertexIndex
    rw [h]
  refine ⟨by rw [hstep], by rw [hstep], by rw [hstep], ?_⟩
  intro radius2 disp2
  rw [hstep]
  unfold getVertexIndex
  simp [List.lookup]

/-- Witness for C4 amended at a concrete input: interning (1,0,0) into the
empty state with radius 10 and zero displacement, then re-interning it with
radius 7 and constant displacement 3, returns index 0 both times and leaves
the state unchanged on the second call. -/
theorem C4_key_from_unit_vector_w :
    (getVertexIndex 10 (fun _ => 0) ((1 : ℝ), 0, 0) ⟨[], []⟩).1 = 0 ∧
    getVertexIndex 7 (fun _ => 3) ((1 : ℝ), 0, 0)
        (getVertexIndex 10 (fun _ => 0) ((1 : ℝ), 0, 0) ⟨[], []⟩).2
      = ((0 : ℕ), (getVertexIndex 10 (fun _ => 0) ((1 : ℝ), 0, 0) ⟨[], []⟩).2) := by
  have h := C4_key_from_unit_vector 10 (fun _ => 0) ((1 : ℝ), 0, 0) ⟨[], []⟩ (by rfl)
  refine ⟨by rw [h.1]; rfl, ?_⟩
  have h4 := h.2.2.2 7 (fun _ => 3)
  rw [h4, h.1]
  rfl

/-- slerp of the Planet generator (src/unnamed/part_003 lines 66-80): clamp
the dot product to [-1,1]; when it exceeds 0.9999 fall back to linear
interpolation followed by renormalization; otherwise return the
weighted-sine blend of the two endpoints, with no further normalization
call in that branch. -/
noncomputable def slerp (v1 v2 : E3) (t : ℝ) : E3 :=
  if 0.9999 < max (-1) (min 1 (dot3 v1 v2)) then normalize3 (lerp3 v1 v2 t)
  else
    vadd3
      (smul3 (Real.sin ((1 - t) * Real.arccos (max (-1) (min 1 (dot3 v1 v2)))) /
        Real.sin (Real.arccos (max (-1) (min 1 (dot3 v1 v2))))) v1)
      (smul3 (Real.sin (t * Real.arccos (max (-1) (min 1 (dot3 v1 v2)))) /
        Real.sin (Real.arccos (max (-1) (min 1 (dot3 v1 v2))))) v2)

/-- The interpolation contract as the spec section 4.2 words it, for
comparison with slerp: identical fallback branch, and the weighted-sine
branch is defensively renormalized before being returned. -/
noncomputable def slerpSpec (v1 v2 : E3) (t : ℝ) : E3 :=
  if 0.9999 < max (-1) (min 1 (dot3 v1 v2)) then normalize3 (lerp3 v1 v2 t)
  else
    normalize3 (vadd3
      (smul3 (Real.sin ((1 - t) * Real.arccos (max (-1) (min 1 (dot3 v1 v2)))) /
        Real.sin (Real.arccos (max (-1) (min 1 (dot3 v1 v2))))) v1)
      (smul3 (Real.sin (t * Real.arccos (max (-1) (min 1 (dot3 v1 v2)))) /
        Real.sin (Real.arccos (max (-1) (min 1 (dot3 v1 v2))))) v2))

lemma dot3_self_nonneg (a : E3) : 0 ≤ dot3 a a := by
  unfold dot3
  nlinarith [mul_self_nonneg a.1, mul_self_nonneg a.2.1, mul_self_nonneg a.2.2]

lemma dot3_self_eq_one {a : E3} (ha : norm3 a = 1) : dot3 a a = 1 := by
  have h : (norm3 a) ^ 2 = dot3 a a := Real.sq_sqrt (dot3_self_nonneg a)
  rw [ha] at h
  linarith

lemma dot3_sq_le_one {a b : E3} (ha : norm3 a = 1) (hb : norm3 b = 1) :
    dot3 a b ^ 2 ≤ 1 := by
  have haa := dot3_self_eq_one ha
  have hbb := dot3_self_eq_one hb
  have hcs : dot3 a b ^ 2 ≤ dot3 a a * dot3 b b := by
    unfold dot3 at *
    nlinarith [sq_nonneg (a.1 * b.2.1 - a.2.1 * b.1), sq_nonneg (a.1 * b.2.2 - a.2.2 * b.1),
      sq_nonneg (a.2.1 * b.2.2 - a.2.2 * b.2.1)]
  rw [haa, hbb] at hcs
  linarith

lemma dot3_clamp_eq {a b : E3} (ha : norm3 a = 1) (hb : norm3 b = 1) :
    max (-1) (min 1 (dot3 a b)) = dot3 a b := by
  have h := dot3_sq_le_one ha hb
  have h1 : -1 ≤ dot3 a b := by nlinarith
  have h2 : dot3 a b ≤ 1 := by nlinarith
  rw [min_eq_right h2, max_eq_right h1]

lemma normalize3_of_norm_one {v : E3} (h : norm3 v = 1) : normalize3 v = v := by
  unfold normalize3
  rw [h]
  norm_num [smul3]

lemma dot3_blend (A B : ℝ) (a b : E3) :
    dot3 (vadd3 (smul3 A a) (smul3 B b)) (vadd3 (smul3 A a) (smul3 B b))
      = A ^ 2 * dot3 a a + 2 * A * B * dot3 a b + B ^ 2 * dot3 b b := by
  unfold dot3 vadd3 smul3
  ring

lemma slerp_blend_norm {a b : E3} (ha : norm3 a = 1) (hb : norm3 b = 1) (t : ℝ)
    (hne : dot3 a b ≠ -1) (hle : dot3 a b ≤ 0.9999) :
    norm3 (vadd3
      (smul3 (Real.sin ((1 - t) * Real.arccos (dot3 a b)) /
        Real.sin (Real.arccos (dot3 a b))) a)
      (smul3 (Real.sin (t * Real.arccos (dot3 a b)) /
        Real.sin (Real.arccos (dot3 a b))) b)) = 1 := by
  have hsq := dot3_sq_le_one ha hb
  have h1 : -1 ≤ dot3 a b := by nlinarith
  have h2 : dot3 a b ≤ 1 := by nlinarith
  have hlt : dot3 a b ^ 2 < 1 := by
    rcases lt_or_eq_of_le h1 with h | h
    · nlinarith
    · exact absurd h.symm hne
  have hS : Real.sin (Real.arccos (dot3 a b)) = Real.sqrt (1 - dot3 a b ^ 2) :=
    Real.sin_arccos (dot3 a b)
  have hSpos : 0 < Real.sin (Real.arccos (dot3 a b)) := by
    rw [hS]
    exact Real.sqrt_pos.mpr (by nlinarith)
  have hS2 : Real.sin (Real.arccos (dot3 a b)) ^ 2 = 1 - dot3 a b ^ 2 := by
    rw [hS]
    exact Real.sq_sqrt (by nlinarith)
  have hcos : Real.cos (Real.arccos (dot3 a b)) = dot3 a b := Real.cos_arccos h1 h2
  have hkey : Real.sin ((1 - t) * Real.arccos (dot3 a b)) ^ 2
      + 2 * Real.sin ((1 - t) * Real.arccos (dot3 a b))
        * Real.sin (t * Real.arccos (dot3 a b)) * dot3 a b
      + Real.sin (t * Real.arccos (dot3 a b)) ^ 2
      = Real.sin (Real.arccos (dot3 a b)) ^ 2 := by
    have hsub : (1 - t) * Real.arccos (dot3 a b)
        = Real.arccos (dot3 a b) - t * Real.arccos (dot3 a b) := by ring
    rw [hsub, Real.sin_sub, hcos]
    have hpy : Real.sin (t * Real.arccos (dot3 a b)) ^ 2
        + Real.cos (t * Real.arccos (dot3 a b)) ^ 2 = 1 :=
      Real.sin_sq_add_cos_sq _
    nlinarith [hpy, hS2]
  have hdot : dot3
      (vadd3
        (smul3 (Real.sin ((1 - t) * Real.arccos (dot3 a b)) /
          Real.sin (Real.arccos (dot3 a b))) a)
        (smul3 (Real.sin (t * Real.arccos (dot3 a b)) /
          Real.sin (Real.arccos (dot3 a b))) b))
      (vadd3
        (smul3 (Real.sin ((1 - t) * Real.arccos (dot3 a b)) /
          Real.sin (Real.arccos (dot3 a b))) a)
        (smul3 (Real.sin (t * Real.arccos (dot3 a b)) /
          Real.sin (Real.arccos (dot3 a b))) b)) = 1 := by
    have hS0 : Real.sin (Real.arccos (dot3 a b)) ≠ 0 := ne_of_gt hSpos
    have hsplit : (Real.sin ((1 - t) * Real.arccos (dot3 a b)) /
          Real.sin (Real.arccos (dot3 a b))) ^ 2 * 1
        + 2 * (Real.sin ((1 - t) * Real.arccos (dot3 a b)) /
            Real.sin (Real.arccos (dot3 a b)))
          * (Real.sin (t * Real.arccos (dot3 a b)) /
            Real.sin (Real.arccos (dot3 a b))) * dot3 a b
        + (Real.sin (t * Real.arccos (dot3 a b)) /
            Real.sin (Real.arccos (dot3 a b))) ^ 2 * 1
        = (Real.sin ((1 - t) * Real.arccos (dot3 a b)) ^ 2
            + 2 * Real.sin ((1 - t) * Real.arccos (dot3 a b))
              * Real.sin (t * Real.arccos (dot3 a b)) * dot3 a b
            + Real.sin (t * Real.arccos (dot3 a b)) ^ 2)
          / Real.sin (Real.arccos (dot3 a b)) ^ 2 := by
      field_simp
      ring
    rw [dot3_blend, dot3_self_eq_one ha, dot3_self_eq_one hb, hsplit, hkey,
      div_self (pow_ne_zero 2 hS0)]
  unfold norm3
  rw [hdot]
  exact Real.sqrt_one

/-- C5: for unit vectors the slerp of the code returns exactly what the
spec describes: the renormalized linear interpolation when the clamped dot
product exceeds 0.9999, and otherwise the weighted-sine blend, whose value
coincides with its defensive renormalization (the blend of unit vectors is
itself of unit length, and in the degenerate antipodal case both sides are
the zero vector). -/
theorem C5_slerp_matches_spec (a b : E3) (t : ℝ) (ha : norm3 a = 1) (hb : norm3 b = 1) :
    slerp a b t = slerpSpec a b t := by
  unfold slerp slerpSpec
  rw [dot3_clamp_eq ha hb]
  by_cases h : 0.9999 < dot3 a b
  · rw [if_pos h, if_pos h]
  · rw [if_neg h, if_neg h]
    by_cases hm : dot3 a b = -1
    · have hθ : Real.arccos (dot3 a b) = Real.pi := by
        rw [hm]
        exact Real.arccos_neg_one
      have hS : Real.sin (Real.arccos (dot3 a b)) = 0 := by
        rw [hθ]
        exact Real.sin_pi
      rw [hS]
      simp [smul3, vadd3, normalize3, norm3, dot3]
    · have hnorm := slerp_blend_norm ha hb t hm (le_of_not_lt h)
      rw [normalize3_of_norm_one hnorm]

/-- Witness for C5 at a concrete input: the orthogonal unit vectors
(1,0,0) and (0,1,0) at t = 1/2. -/
theorem C5_slerp_matches_spec_w :
    slerp ((1 : ℝ), 0, 0) ((0 : ℝ), 1, 0) (1 / 2)
      = slerpSpec ((1 : ℝ), 0, 0) ((0 : ℝ), 1, 0) (1 / 2) :=
  C5_slerp_matches_spec ((1 : ℝ), 0, 0) ((0 : ℝ), 1, 0) (1 / 2)
    (by simp [norm3, dot3]) (by simp [norm3, dot3])

/-- Edge snapping of processSubFace: the fraction x/k along an edge is
rounded to the nearest multiple of 1/ke, as Math.round(t * k_e) / k_e. -/
noncomputable def snapR (k ke x : ℕ) : ℝ :=
  ((jsRound ((x : ℝ) / (k : ℝ) * (ke : ℝ)) : ℤ) : ℝ) / (ke : ℝ)

/-- The vertex position computed for grid slot (r, c) of a triangular patch
by processSubFace (src/unnamed/part_003 lines 243-267): a point of the
bottom edge (r = k) is snapped along v2-v3 with that edge resolution, a
point of the left edge (c = 0) along v1-v2, a point of the right edge
(c = r) along v1-v3, and an interior point is interpolated between the row
endpoints. -/
noncomputable def gridPoint (v1 v2 v3 : E3) (k ke1 ke2 ke3 r c : ℕ) : E3 :=
  if r = k then slerp v2 v3 (snapR k ke3 c)
  else if c = 0 then slerp v1 v2 (snapR k ke1 r)
  else if c = r then slerp v1 v3 (snapR k ke2 r)
  else slerp (slerp v1 v2 ((r : ℝ) / (k : ℝ))) (slerp v1 v3 ((r : ℝ) / (k : ℝ)))
    (if r = 0 then 0 else (c : ℝ) / (r : ℝ))

lemma e3_ext {p q : E3} (h1 : p.1 = q.1) (h2 : p.2.1 = q.2.1) (h3 : p.2.2 = q.2.2) :
    p = q := by
  rcases p with ⟨px, py, pz⟩
  rcases q with ⟨qx, qy, qz⟩
  simp only at h1 h2 h3
  rw [h1, h2, h3]

lemma snapR_zero (k ke : ℕ) : snapR k ke 0 = 0 := by
  unfold snapR jsRound
  norm_num

lemma snapR_last {k ke : ℕ} (hk : 1 ≤ k) (hke : 1 ≤ ke) : snapR k ke k = 1 := by
  unfold snapR jsRound
  have hkne : (k : ℝ) ≠ 0 := by
    have : (0 : ℝ) < (k : ℝ) := by exact_mod_cast hk
    linarith
  rw [div_self hkne, one_mul]
  have hfl : ⌊(ke : ℝ) + 1 / 2⌋ = (ke : ℤ) := by
    apply Int.floor_eq_iff.mpr
    constructor
    · push_cast
      linarith
    · push_cast
      linarith
  rw [hfl]
  have hkene : ((ke : ℤ) : ℝ) ≠ 0 := by
    have : (0 : ℝ) < (ke : ℝ) := by exact_mod_cast hke
    push_cast
    linarith
  rw [show (((ke : ℤ) : ℝ) / (ke : ℝ)) = (((ke : ℤ) : ℝ) / ((ke : ℤ) : ℝ)) by push_cast; ring]
  exact div_self hkene

lemma slerp_zero {a b : E3} (ha : norm3 a = 1) (hb : norm3 b = 1)
    (hnd : -1 < dot3 a b) : slerp a b 0 = a := by
  unfold slerp
  rw [dot3_clamp_eq ha hb]
  by_cases h : 0.9999 < dot3 a b
  · rw [if_pos h]
    have hl : lerp3 a b 0 = a := by
      refine e3_ext ?_ ?_ ?_
      · show a.1 + 0 * (b.1 - a.1) = a.1
        ring
      · show a.2.1 + 0 * (b.2.1 - a.2.1) = a.2.1
        ring
      · show a.2.2 + 0 * (b.2.2 - a.2.2) = a.2.2
        ring
    rw [hl, normalize3_of_norm_one ha]
  · rw [if_neg h]
    have hsq := dot3_sq_le_one ha hb
    have hle : dot3 a b ≤ 0.9999 := le_of_not_lt h
    have hS : Real.sin (Real.arccos (dot3 a b)) = Real.sqrt (1 - dot3 a b ^ 2) :=
      Real.sin_arccos (dot3 a b)
    have hSpos : 0 < Real.sin (Real.arccos (dot3 a b)) := by
      rw [hS]
      apply Real.sqrt_pos.mpr
      nlinarith
    have hS0 : Real.sin (Real.arccos (dot3 a b)) ≠ 0 := ne_of_gt hSpos
    rw [show (1 - (0 : ℝ)) * Real.arccos (dot3 a b) = Real.arccos (dot3 a b) by ring,
      show (0 : ℝ) * Real.arccos (dot3 a b) = 0 by ring, Real.sin_zero, zero_div,
      div_self hS0]
    refine e3_ext ?_ ?_ ?_
    · show 1 * a.1 + 0 * b.1 = a.1
      ring
    · show 1 * a.2.1 + 0 * b.2.1 = a.2.1
      ring
    · show 1 * a.2.2 + 0 * b.2.2 = a.2.2
      ring

lemma slerp_one {a b : E3} (ha : norm3 a = 1) (hb : norm3 b = 1)
    (hnd : -1 < dot3 a b) : slerp a b 1 = b := by
  unfold slerp
  rw [dot3_clamp_eq ha hb]
  by_cases h : 0.9999 < dot3 a b
  · rw [if_pos h]
    have hl : lerp3 a b 1 = b := by
      refine e3_ext ?_ ?_ ?_
      · show a.1 + 1 * (b.1 - a.1) = b.1
        ring
      · show a.2.1 + 1 * (b.2.1 - a.2.1) = b.2.1
        ring
      · show a.2.2 + 1 * (b.2.2 - a.2.2) = b.2.2
        ring
    rw [hl, normalize3_of_norm_one hb]
  · rw [if_neg h]
    have hsq := dot3_sq_le_one ha hb
    have hle : dot3 a b ≤ 0.9999 := le_of_not_lt h
    have hS : Real.sin (Real.arccos (dot3 a b)) = Real.sqrt (1 - dot3 a b ^ 2) :=
      Real.sin_arccos (dot3 a b)
    have hSpos : 0 < Real.sin (Real.arccos (dot3 a b)) := by
      rw [hS]
      apply Real.sqrt_pos.mpr
      nlinarith
    have hS0 : Real.sin (Real.arccos (dot3 a b)) ≠ 0 := ne_of_gt hSpos
    rw [show (1 - (1 : ℝ)) * Real.arccos (dot3 a b) = 0 by ring,
      show (1 : ℝ) * Real.arccos (dot3 a b) = Real.arccos (dot3 a b) by ring,
      Real.sin_zero, zero_div, div_self hS0]
    refine e3_ext ?_ ?_ ?_
    · show 0 * a.1 + 1 * b.1 = b.1
      ring
    · show 0 * a.2.1 + 1 * b.2.1 = b.2.1
      ring
    · show 0 * a.2.2 + 1 * b.2.2 = b.2.2
      ring

/-- C6 counterexample: at k = 2 the grid point (r,c) = (1,1) lies on the
v1-v3 edge of the patch and is recomputed by the code with the snapped edge
interpolation, yet it satisfies none of the edge conditions r = 0, c = 0,
r = k that the claim uses to enumerate the three edges: the actual third
condition in the code is c = r, not r = 0. -/
theorem C6_edge_condition_cex :
    ¬((1 : ℕ) = 0 ∨ (1 : ℕ) = 0 ∨ (1 : ℕ) = 2) ∧
    gridPoint ((1 : ℝ), 0, 0) ((0 : ℝ), 1, 0) ((0 : ℝ), 0, 1) 2 2 2 2 1 1
      = slerp ((1 : ℝ), 0, 0) ((0 : ℝ), 0, 1) (snapR 2 2 1) := by
  refine ⟨by decide, ?_⟩
  unfold gridPoint
  norm_num

/-- C6 amended: in the triangular patch generator the three edges of the
grid are r = k, c = 0 and c = r (not r = 0, which is only the apex); every
grid point on one of these edges, corner slots included, is recomputed by
interpolating along that edge at its own resolution, at the fraction
rounded to the nearest multiple of one over that edge resolution. -/
theorem C6_edge_snapping (v1 v2 v3 : E3) (k ke1 ke2 ke3 r c : ℕ)
    (h1 : norm3 v1 = 1) (h2 : norm3 v2 = 1) (h3 : norm3 v3 = 1)
    (h12 : -1 < dot3 v1 v2) (h13 : -1 < dot3 v1 v3) (h23 : -1 < dot3 v2 v3)
    (hk : 1 ≤ k) (hke1 : 1 ≤ ke1) (hke2 : 1 ≤ ke2) (hke3 : 1 ≤ ke3) :
    (c = 0 → gridPoint v1 v2 v3 k ke1 ke2 ke3 r c = slerp v1 v2 (snapR k ke1 r)) ∧
    (c = r → gridPoint v1 v2 v3 k ke1 ke2 ke3 r c = slerp v1 v3 (snapR k ke2 r)) ∧
    (r = k → gridPoint v1 v2 v3 k ke1 ke2 ke3 r c = slerp v2 v3 (snapR k ke3 c)) := by
  refine ⟨?_, ?_, ?_⟩
  · intro hc
    subst hc
    unfold gridPoint
    by_cases hrk : r = k
    · subst hrk
      rw [if_pos rfl, snapR_zero, slerp_zero h2 h3 h23, snapR_last hk hke1,
        slerp_one h1 h2 h12]
    · rw [if_neg hrk, if_pos rfl]
  · intro hc
    subst hc
    unfold gridPoint
    by_cases hck : c = k
    · subst hck
      rw [if_pos rfl, snapR_last hk hke3, slerp_one h2 h3 h23, snapR_last hk hke2,
        slerp_one h1 h3 h13]
    · by_cases hc0 : c = 0
      · subst hc0
        rw [if_neg hck, if_pos rfl, snapR_zero, slerp_zero h1 h2 h12, snapR_zero,
          slerp_zero h1 h3 h13]
      · rw [if_neg hck, if_neg hc0, if_pos rfl]
  · intro hr
    subst hr
    unfold gridPoint
    rw [if_pos rfl]

/-- Witness for C6 amended at a concrete input: orthogonal unit corners
with k = 2 and all edge resolutions 2; the left-edge slot (r,c) = (1,0) is
snapped along the v1-v2 edge. -/
theorem C6_edge_snapping_w :
    gridPoint ((1 : ℝ), 0, 0) ((0 : ℝ), 1, 0) ((0 : ℝ), 0, 1) 2 2 2 2 1 0
      = slerp ((1 : ℝ), 0, 0) ((0 : ℝ), 1, 0) (snapR 2 2 1) :=
  (C6_edge_snapping ((1 : ℝ), 0, 0) ((0 : ℝ), 1, 0) ((0 : ℝ), 0, 1) 2 2 2 2 1 0
    (by simp [norm3, dot3]) (by simp [norm3, dot3]) (by simp [norm3, dot3])
    (by norm_num [dot3]) (by norm_num [dot3]) (by norm_num [dot3])
    (by norm_num) (by norm_num) (by norm_num) (by norm_num)).1 rfl

/-- Math.round over the rationals (round half up), used for the exact
arithmetic of the snapped edge fractions. -/
def jsRoundQ (x : ℚ) : ℤ := ⌊x + 1 / 2⌋

/-- The snapped edge fraction Math.round((x/k) * k_e) / k_e of
processSubFace, computed exactly over the rationals. -/
def snapQ (k ke x : ℕ) : ℚ :=
  ((jsRoundQ ((x : ℚ) / (k : ℚ) * (ke : ℚ))) : ℚ) / (ke : ℚ)

/-- The list of snapped fractions a patch of grid resolution k produces
along one edge whose resolved edge resolution is ke: one entry for each of
the k+1 boundary slots of its grid. -/
def edgeParams (k ke : ℕ) : List ℚ := (List.range (k + 1)).map (fun r => snapQ k ke r)

lemma edgeParams_88_eval : edgeParams 8 8 = [0, 1/8, 1/4, 3/8, 1/2, 5/8, 3/4, 7/8, 1] := by
  norm_num [edgeParams, snapQ, jsRoundQ, List.range_succ]

lemma edgeParams_84_eval : edgeParams 8 4 = [0, 1/4, 1/4, 1/2, 1/2, 3/4, 3/4, 1, 1] := by
  norm_num [edgeParams, snapQ, jsRoundQ, List.range_succ]

lemma edgeParams_44_eval : edgeParams 4 4 = [0, 1/4, 1/2, 3/4, 1] := by
  norm_num [edgeParams, snapQ, jsRoundQ, List.range_succ]

/-- C3 counterexample: if the two patches really snapped the shared edge at
two different resolutions, 8 for one and 4 for the other, as the claim
states, the edge would hold 9 distinct positions after deduplication, not
5: the fine side keeps all nine multiples of 1/8 and the coarse multiples
of 1/4 are among them. -/
theorem C3_mismatched_snap_cex :
    ((edgeParams 8 8).toFinset ∪ (edgeParams 4 4).toFinset).card = 9 ∧
    ¬(((edgeParams 8 8).toFinset ∪ (edgeParams 4 4).toFinset).card = 5) := by
  have hsub : (edgeParams 4 4).toFinset ⊆ (edgeParams 8 8).toFinset := by
    rw [edgeParams_44_eval, edgeParams_88_eval]
    intro q hq
    simp only [List.mem_toFinset, List.mem_cons, List.not_mem_nil, or_false] at hq ⊢
    rcases hq with rfl | rfl | rfl | rfl | rfl <;> norm_num
  have hcard : ((edgeParams 8 8).toFinset ∪ (edgeParams 4 4).toFinset).card = 9 := by
    rw [Finset.union_eq_left.mpr hsub, edgeParams_88_eval,
      List.toFinset_card_of_nodup (by norm_num [List.nodup_cons])]
    rfl
  exact ⟨hcard, by rw [hcard]; norm_num⟩

lemma toFinset_map_eq_image {α : Type} [DecidableEq α] (f : ℚ → α) (l : List ℚ) :
    (l.map f).toFinset = l.toFinset.image f := by
  induction l with
  | nil => simp
  | cons a t ih => simp [ih]

/-- C3 amended: both patches snap the shared edge at the same resolved edge
resolution 4 (the code evaluates the edge resolution at the shared edge
midpoint, so both sides agree); the patch tessellated at k = 8 collapses
its nine boundary slots onto the five multiples of 1/4, the k = 4 patch
produces the same five, and after deduplication through any injective
position map the shared edge holds exactly 5 distinct vertices, not 9. -/
theorem C3_shared_edge_five {α : Type} [DecidableEq α] (pos : ℚ → α)
    (hinj : Function.Injective pos) :
    (((edgeParams 8 4).map pos).toFinset ∪ ((edgeParams 4 4).map pos).toFinset).card = 5 := by
  have he : (edgeParams 8 4).toFinset = (edgeParams 4 4).toFinset := by
    rw [edgeParams_84_eval, edgeParams_44_eval]
    apply Finset.ext
    intro q
    simp only [List.mem_toFinset, List.mem_cons, List.not_mem_nil, or_false]
    constructor
    · rintro (rfl | rfl | rfl | rfl | rfl | rfl | rfl | rfl | rfl) <;> norm_num
    · rintro (rfl | rfl | rfl | rfl | rfl) <;> norm_num
  have hc : (edgeParams 4 4).toFinset.card = 5 := by
    rw [edgeParams_44_eval,
      List.toFinset_card_of_nodup (by norm_num [List.nodup_cons])]
    rfl
  rw [toFinset_map_eq_image, toFinset_map_eq_image, he, Finset.union_self,
    Finset.card_image_of_injective _ hinj, hc]

/-- Witness for C3 amended with the identity position map, which is
injective. -/
theorem C3_shared_edge_five_w :
    (((edgeParams 8 4).map (fun q : ℚ => q)).toFinset ∪
      ((edgeParams 4 4).map (fun q : ℚ => q)).toFinset).card = 5 :=
  C3_shared_edge_five (fun q : ℚ => q) (fun _ _ h => h)

/-- The decoded heightmap of src/app/utils/heightmap.ts: an RGBA byte array
with its pixel dimensions; Uint8ClampedArray entries are bytes in 0..255. -/
structure HeightMapData where
  data : List (Fin 256)
  width : ℕ
  height : ℕ

/-- The clamped pixel column sampleHeight computes:
max(0, min(width - 1, floor(u * (width - 1)))). -/
noncomputable def samplePixelX (u : ℝ) (hm : HeightMapData) : ℤ :=
  max 0 (min ((hm.width : ℤ) - 1) ⌊u * ((hm.width : ℝ) - 1)⌋)

/-- The clamped pixel row sampleHeight computes:
max(0, min(height - 1, floor(v * (height - 1)))). -/
noncomputable def samplePixelY (v : ℝ) (hm : HeightMapData) : ℤ :=
  max 0 (min ((hm.height : ℤ) - 1) ⌊v * ((hm.height : ℝ) - 1)⌋)

/-- The flat RGBA offset (y * width + x) * 4 read by sampleHeight. -/
noncomputable def sampleIndex (u v : ℝ) (hm : HeightMapData) : ℤ :=
  (samplePixelY v hm * (hm.width : ℤ) + samplePixelX u hm) * 4

/-- sampleHeight of src/app/utils/heightmap.ts lines 37-53: read the R
channel at the clamped pixel and divide by 255. -/
noncomputable def sampleHeight (u v : ℝ) (hm : HeightMapData) : ℝ :=
  (((hm.data.getD (sampleIndex u v hm).toNat 0 : Fin 256) : ℕ) : ℝ) / 255

/-- C10: for every heightmap with positive dimensions and an RGBA array of
the matching length, and arbitrary real inputs u and v, including values
outside the unit interval, the sampler computes a nonnegative in-bounds
flat offset and returns a value in the closed interval from 0 to 1. -/
theorem C10_sampleHeight_safe (hm : HeightMapData) (u v : ℝ)
    (hw : 1 ≤ hm.width) (hh : 1 ≤ hm.height)
    (hlen : hm.data.length = hm.width * hm.height * 4) :
    0 ≤ sampleIndex u v hm ∧ (sampleIndex u v hm).toNat < hm.data.length ∧
    0 ≤ sampleHeight u v hm ∧ sampleHeight u v hm ≤ 1 := by
  have hwz : (1 : ℤ) ≤ (hm.width : ℤ) := by exact_mod_cast hw
  have hhz : (1 : ℤ) ≤ (hm.height : ℤ) := by exact_mod_cast hh
  have hx0 : 0 ≤ samplePixelX u hm := le_max_left _ _
  have hy0 : 0 ≤ samplePixelY v hm := le_max_left _ _
  have hx1 : samplePixelX u hm ≤ (hm.width : ℤ) - 1 := by
    unfold samplePixelX
    apply max_le (by omega) (min_le_left _ _)
  have hy1 : samplePixelY v hm ≤ (hm.height : ℤ) - 1 := by
    unfold samplePixelY
    apply max_le (by omega) (min_le_left _ _)
  have hiz : 0 ≤ sampleIndex u v hm := by
    unfold sampleIndex
    have hw0 : (0 : ℤ) ≤ (hm.width : ℤ) := by omega
    nlinarith
  have hub : sampleIndex u v hm < (hm.width : ℤ) * (hm.height : ℤ) * 4 := by
    unfold sampleIndex
    nlinarith
  have hbound : (sampleIndex u v hm).toNat < hm.data.length := by
    rw [hlen]
    have hlt : (((sampleIndex u v hm).toNat : ℤ))
        < ((hm.width * hm.height * 4 : ℕ) : ℤ) := by
      rw [Int.toNat_of_nonneg hiz]
      push_cast
      exact hub
    exact_mod_cast hlt
  refine ⟨hiz, hbound, ?_, ?_⟩
  · unfold sampleHeight
    positivity
  · unfold sampleHeight
    rw [div_le_one (by norm_num)]
    have hfin : ((hm.data.getD (sampleIndex u v hm).toNat 0 : Fin 256) : ℕ) < 256 :=
      (hm.data.getD (sampleIndex u v hm).toNat 0).isLt
    have : (((hm.data.getD (sampleIndex u v hm).toNat 0 : Fin 256) : ℕ) : ℝ) ≤ 255 := by
      exact_mod_cast Nat.lt_succ_iff.mp hfin
    linarith

/-- Witness for C10 at a concrete input: a one-pixel heightmap with value
200 sampled at the out-of-range coordinates u = 5, v = -3. -/
theorem C10_sampleHeight_safe_w :
    0 ≤ sampleIndex 5 (-3) (HeightMapData.mk [200, 15, 15, 255] 1 1) ∧
    (sampleIndex 5 (-3) (HeightMapData.mk [200, 15, 15, 255] 1 1)).toNat
      < (HeightMapData.mk [200, 15, 15, 255] 1 1).data.length ∧
    0 ≤ sampleHeight 5 (-3) (HeightMapData.mk [200, 15, 15, 255] 1 1) ∧
    sampleHeight 5 (-3) (HeightMapData.mk [200, 15, 15, 255] 1 1) ≤ 1 :=
  C10_sampleHeight_safe (HeightMapData.mk [200, 15, 15, 255] 1 1) 5 (-3)
    (by norm_num) (by norm_num) rfl

/-- Triangle of vertex indices, one addTri call of createStitchedGeometry. -/
abbrev Tri : Type := ℕ × ℕ × ℕ

/-- getIdx of createStitchedGeometry: the dense grid of a face with the
given segment count stores vertex (x, z) at index z * (segments+1) + x. -/
def cellIdx (N x z : ℕ) : ℕ := z * (N + 1) + x

/-- The local index helper of the corner blocks: i(dx, dz) is
getIdx(xBase + dx, zBase + dz). -/
def cornerIdx (N xB zB dx dz : ℕ) : ℕ := cellIdx N (xB + dx) (zB + dz)

/-- isInHole of createStitchedGeometry: a cell (x, z) is skipped when the
hole flag is set and both coordinates lie in
[segments * (0.5 - holeSize/2), segments * (0.5 + holeSize/2)). -/
def isInHole (hole : Bool) (N : ℕ) (holeSize : ℚ) (x z : ℕ) : Bool :=
  hole &&
    decide ((N : ℚ) * (1 / 2 - holeSize / 2) ≤ (x : ℚ)) &&
    decide ((x : ℚ) < (N : ℚ) * (1 / 2 + holeSize / 2)) &&
    decide ((N : ℚ) * (1 / 2 - holeSize / 2) ≤ (z : ℚ)) &&
    decide ((z : ℚ) < (N : ℚ) * (1 / 2 + holeSize / 2))

/-- Index sequence of a JavaScript loop for (i = a; i < b; i++). -/
def jsRange (a b : ℕ) : List ℕ := (List.range (b - a)).map (a + ·)

/-- Index sequence of a JavaScript loop for (i = a; i < b; i += 2). -/
def jsRange2 (a b : ℕ) : List ℕ := (List.range ((b - a + 1) / 2)).map (fun i => a + 2 * i)

/-- The two standard triangles of one grid cell, exactly the pair
addTri(a,d,b); addTri(b,d,c) with a = (x,z), b = (x+1,z), c = (x+1,z+1),
d = (x,z+1). -/
def cellQuad (N x z : ℕ) : List Tri :=
  [(cellIdx N x z, cellIdx N x (z + 1), cellIdx N (x + 1) z),
   (cellIdx N (x + 1) z, cellIdx N x (z + 1), cellIdx N (x + 1) (z + 1))]

/-- Interior pass of createStitchedGeometry (StitchedFace.tsx lines
308-318): standard quads for cells with 1 <= x, z <= segments-2, skipping
hole cells. -/
def interiorTris (N : ℕ) (hole : Bool) (holeSize : ℚ) : List Tri :=
  (jsRange 1 (N - 1)).flatMap (fun z =>
    (jsRange 1 (N - 1)).flatMap (fun x =>
      if isInHole hole N holeSize x z then [] else cellQuad N x z))

/-- Top edge strip (StitchedFace.tsx lines 322-355): when the top ratio
exceeds 1, a 3-triangle fan per two cells (skipping hole cells), otherwise
standard quads for x in [2, segments-3]. -/
def topTris (N topR : ℕ) (hole : Bool) (holeSize : ℚ) : List Tri :=
  if 1 < topR then
    (jsRange2 2 (N - 2)).flatMap (fun x =>
      if isInHole hole N holeSize x 0 then []
      else
        [(cellIdx N x 1, cellIdx N x 0, cellIdx N (x + 1) 1),
         (cellIdx N x 0, cellIdx N (x + 2) 0, cellIdx N (x + 1) 1),
         (cellIdx N (x + 1) 1, cellIdx N (x + 2) 0, cellIdx N (x + 2) 1)])
  else
    (jsRange 1 (N - 1)).flatMap (fun x =>
      if x < 2 ∨ N - 2 ≤ x then [] else cellQuad N x 0)

/-- Bottom edge strip (StitchedFace.tsx lines 357-378). -/
def bottomTris (N botR : ℕ) : List Tri :=
  if 1 < botR then
    (jsRange2 2 (N - 2)).flatMap (fun x =>
      [(cellIdx N x (N - 1), cellIdx N x N, cellIdx N (x + 1) (N - 1)),
       (cellIdx N (x + 1) (N - 1), cellIdx N x N, cellIdx N (x + 2) N),
       (cellIdx N (x + 2) (N - 1), cellIdx N (x + 2) N, cellIdx N (x + 1) (N - 1))])
  else
    (jsRange 2 (N - 2)).flatMap (fun x => cellQuad N x (N - 1))

/-- Left edge strip (StitchedFace.tsx lines 380-401). -/
def leftTris (N leftR : ℕ) : List Tri :=
  if 1 < leftR then
    (jsRange2 2 (N - 2)).flatMap (fun z =>
      [(cellIdx N 1 z, cellIdx N 0 z, cellIdx N 1 (z + 1)),
       (cellIdx N 0 z, cellIdx N 0 (z + 2), cellIdx N 1 (z + 1)),
       (cellIdx N 1 (z + 1), cellIdx N 0 (z + 2), cellIdx N 1 (z + 2))])
  else
    (jsRange 2 (N - 2)).flatMap (fun z => cellQuad N 0 z)

/-- Right edge strip (StitchedFace.tsx lines 403-424). -/
def rightTris (N rightR : ℕ) : List Tri :=
  if 1 < rightR then
    (jsRange2 2 (N - 2)).flatMap (fun z =>
      [(cellIdx N (N - 1) z, cellIdx N (N - 1) (z + 1), cellIdx N N z),
       (cellIdx N (N - 1) (z + 1), cellIdx N N (z + 2), cellIdx N N z),
       (cellIdx N (N - 1) (z + 1), cellIdx N (N - 1) (z + 2), cellIdx N N (z + 2))])
  else
    (jsRange 2 (N - 2)).flatMap (fun z => cellQuad N (N - 1) z)

/-- addCorner of createStitchedGeometry (StitchedFace.tsx lines 434-577),
used for the top-left 2x2 corner block: both edges stitched, neither
stitched (four standard quads), or one of the two mixed cases. -/
def addCorner (N xB zB sH sV : ℕ) : List Tri :=
  if 1 < sH ∧ 1 < sV then
    [(cornerIdx N xB zB 0 0, cornerIdx N xB zB 1 1, cornerIdx N xB zB 0 2),
     (cornerIdx N xB zB 0 0, cornerIdx N xB zB 2 0, cornerIdx N xB zB 1 1),
     (cornerIdx N xB zB 2 0, cornerIdx N xB zB 2 1, cornerIdx N xB zB 1 1),
     (cornerIdx N xB zB 0 2, cornerIdx N xB zB 1 1, cornerIdx N xB zB 1 2)]
  else if sH = 1 ∧ sV = 1 then
    [0, 1].flatMap (fun dz =>
      [0, 1].flatMap (fun dx =>
        [(cornerIdx N xB zB dx dz, cornerIdx N xB zB dx (dz + 1),
            cornerIdx N xB zB (dx + 1) dz),
         (cornerIdx N xB zB (dx + 1) dz, cornerIdx N xB zB dx (dz + 1),
            cornerIdx N xB zB (dx + 1) (dz + 1))]))
  else if 1 < sH ∧ sV = 1 then
    [(cornerIdx N xB zB 0 0, cornerIdx N xB zB 2 0, cornerIdx N xB zB 1 1),
     (cornerIdx N xB zB 0 0, cornerIdx N xB zB 1 1, cornerIdx N xB zB 0 1),
     (cornerIdx N xB zB 0 1, cornerIdx N xB zB 0 2, cornerIdx N xB zB 1 1),
     (cornerIdx N xB zB 1 1, cornerIdx N xB zB 0 2, cornerIdx N xB zB 1 2),
     (cornerIdx N xB zB 2 0, cornerIdx N xB zB 2 1, cornerIdx N xB zB 1 1),
     (cornerIdx N xB zB 1 1, cornerIdx N xB zB 1 2, cornerIdx N xB zB 2 1),
     (cornerIdx N xB zB 2 1, cornerIdx N xB zB 1 2, cornerIdx N xB zB 2 2)]
  else if sH = 1 ∧ 1 < sV then
    [(cornerIdx N xB zB 0 0, cornerIdx N xB zB 1 1, cornerIdx N xB zB 0 2),
     (cornerIdx N xB zB 0 0, cornerIdx N xB zB 1 0, cornerIdx N xB zB 1 1),
     (cornerIdx N xB zB 0 2, cornerIdx N xB zB 1 1, cornerIdx N xB zB 1 2),
     (cornerIdx N xB zB 1 0, cornerIdx N xB zB 1 1, cornerIdx N xB zB 2 0),
     (cornerIdx N xB zB 2 0, cornerIdx N xB zB 1 1, cornerIdx N xB zB 2 1),
     (cornerIdx N xB zB 1 1, cornerIdx N xB zB 1 2, cornerIdx N xB zB 2 1),
     (cornerIdx N xB zB 2 1, cornerIdx N xB zB 1 2, cornerIdx N xB zB 2 2)]
  else []

/-- The inline top-right corner block (StitchedFace.tsx lines 594-698),
based at (segments-2, 0); in the both-stitched case the code emits five
triangles, the first of which overlaps the next two. -/
def cornerTR (N sH sV : ℕ) : List Tri :=
  if 1 < sH ∧ 1 < sV then
    [(cornerIdx N (N - 2) 0 0 0, cornerIdx N (N - 2) 0 2 0, cornerIdx N (N - 2) 0 1 1),
     (cornerIdx N (N - 2) 0 2 0, cornerIdx N (N - 2) 0 2 2, cornerIdx N (N - 2) 0 1 1),
     (cornerIdx N (N - 2) 0 2 0, cornerIdx N (N - 2) 0 1 1, cornerIdx N (N - 2) 0 0 0),
     (cornerIdx N (N - 2) 0 0 0, cornerIdx N (N - 2) 0 0 1, cornerIdx N (N - 2) 0 1 1),
     (cornerIdx N (N - 2) 0 2 2, cornerIdx N (N - 2) 0 1 2, cornerIdx N (N - 2) 0 1 1)]
  else if sH = 1 ∧ sV = 1 then
    [0, 1].flatMap (fun dz =>
      [0, 1].flatMap (fun dx =>
        [(cornerIdx N (N - 2) 0 dx dz, cornerIdx N (N - 2) 0 dx (dz + 1),
            cornerIdx N (N - 2) 0 (dx + 1) dz),
         (cornerIdx N (N - 2) 0 (dx + 1) dz, cornerIdx N (N - 2) 0 dx (dz + 1),
            cornerIdx N (N - 2) 0 (dx + 1) (dz + 1))]))
  else if 1 < sH ∧ sV = 1 then
    [(cornerIdx N (N - 2) 0 0 0, cornerIdx N (N - 2) 0 1 1, cornerIdx N (N - 2) 0 2 0),
     (cornerIdx N (N - 2) 0 2 0, cornerIdx N (N - 2) 0 2 1, cornerIdx N (N - 2) 0 1 1),
     (cornerIdx N (N - 2) 0 0 0, cornerIdx N (N - 2) 0 0 1, cornerIdx N (N - 2) 0 1 1),
     (cornerIdx N (N - 2) 0 0 1, cornerIdx N (N - 2) 0 0 2, cornerIdx N (N - 2) 0 1 1),
     (cornerIdx N (N - 2) 0 1 1, cornerIdx N (N - 2) 0 0 2, cornerIdx N (N - 2) 0 1 2),
     (cornerIdx N (N - 2) 0 1 1, cornerIdx N (N - 2) 0 1 2, cornerIdx N (N - 2) 0 2 1),
     (cornerIdx N (N - 2) 0 2 1, cornerIdx N (N - 2) 0 1 2, cornerIdx N (N - 2) 0 2 2)]
  else if sH = 1 ∧ 1 < sV then
    [(cornerIdx N (N - 2) 0 2 0, cornerIdx N (N - 2) 0 2 2, cornerIdx N (N - 2) 0 1 1),
     (cornerIdx N (N - 2) 0 1 0, cornerIdx N (N - 2) 0 2 0, cornerIdx N (N - 2) 0 1 1),
     (cornerIdx N (N - 2) 0 1 2, cornerIdx N (N - 2) 0 2 2, cornerIdx N (N - 2) 0 1 1),
     (cornerIdx N (N - 2) 0 0 0, cornerIdx N (N - 2) 0 0 1, cornerIdx N (N - 2) 0 1 0),
     (cornerIdx N (N - 2) 0 1 0, cornerIdx N (N - 2) 0 0 1, cornerIdx N (N - 2) 0 1 1),
     (cornerIdx N (N - 2) 0 0 1, cornerIdx N (N - 2) 0 0 2, cornerIdx N (N - 2) 0 1 1),
     (cornerIdx N (N - 2) 0 1 1, cornerIdx N (N - 2) 0 0 2, cornerIdx N (N - 2) 0 1 2)]
  else []

/-- The inline bottom-left corner block (StitchedFace.tsx lines 700-783),
based at (0, segments-2). -/
def cornerBL (N sH sV : ℕ) : List Tri :=
  if 1 < sH ∧ 1 < sV then
    [(cornerIdx N 0 (N - 2) 0 2, cornerIdx N 0 (N - 2) 0 0, cornerIdx N 0 (N - 2) 1 1),
     (cornerIdx N 0 (N - 2) 0 2, cornerIdx N 0 (N - 2) 1 1, cornerIdx N 0 (N - 2) 2 2),
     (cornerIdx N 0 (N - 2) 2 2, cornerIdx N 0 (N - 2) 2 1, cornerIdx N 0 (N - 2) 1 1),
     (cornerIdx N 0 (N - 2) 0 0, cornerIdx N 0 (N - 2) 1 1, cornerIdx N 0 (N - 2) 1 0)]
  else if sH = 1 ∧ sV = 1 then
    [0, 1].flatMap (fun dz =>
      [0, 1].flatMap (fun dx =>
        [(cornerIdx N 0 (N - 2) dx dz, cornerIdx N 0 (N - 2) dx (dz + 1),
            cornerIdx N 0 (N - 2) (dx + 1) dz),
         (cornerIdx N 0 (N - 2) (dx + 1) dz, cornerIdx N 0 (N - 2) dx (dz + 1),
            cornerIdx N 0 (N - 2) (dx + 1) (dz + 1))]))
  else if 1 < sH ∧ sV = 1 then
    [(cornerIdx N 0 (N - 2) 0 2, cornerIdx N 0 (N - 2) 1 1, cornerIdx N 0 (N - 2) 2 2),
     (cornerIdx N 0 (N - 2) 0 1, cornerIdx N 0 (N - 2) 0 2, cornerIdx N 0 (N - 2) 1 1),
     (cornerIdx N 0 (N - 2) 2 1, cornerIdx N 0 (N - 2) 2 2, cornerIdx N 0 (N - 2) 1 1),
     (cornerIdx N 0 (N - 2) 0 0, cornerIdx N 0 (N - 2) 0 1, cornerIdx N 0 (N - 2) 1 0),
     (cornerIdx N 0 (N - 2) 1 0, cornerIdx N 0 (N - 2) 0 1, cornerIdx N 0 (N - 2) 1 1),
     (cornerIdx N 0 (N - 2) 1 0, cornerIdx N 0 (N - 2) 1 1, cornerIdx N 0 (N - 2) 2 0),
     (cornerIdx N 0 (N - 2) 2 0, cornerIdx N 0 (N - 2) 1 1, cornerIdx N 0 (N - 2) 2 1)]
  else if sH = 1 ∧ 1 < sV then
    [(cornerIdx N 0 (N - 2) 0 2, cornerIdx N 0 (N - 2) 0 0, cornerIdx N 0 (N - 2) 1 1),
     (cornerIdx N 0 (N - 2) 0 0, cornerIdx N 0 (N - 2) 1 0, cornerIdx N 0 (N - 2) 1 1),
     (cornerIdx N 0 (N - 2) 0 2, cornerIdx N 0 (N - 2) 1 2, cornerIdx N 0 (N - 2) 1 1),
     (cornerIdx N 0 (N - 2) 1 0, cornerIdx N 0 (N - 2) 1 1, cornerIdx N 0 (N - 2) 2 0),
     (cornerIdx N 0 (N - 2) 2 0, cornerIdx N 0 (N - 2) 1 1, cornerIdx N 0 (N - 2) 2 1),
     (cornerIdx N 0 (N - 2) 1 1, cornerIdx N 0 (N - 2) 1 2, cornerIdx N 0 (N - 2) 2 1),
     (cornerIdx N 0 (N - 2) 2 1, cornerIdx N 0 (N - 2) 1 2, cornerIdx N 0 (N - 2) 2 2)]
  else []

/-- The inline bottom-right corner block (StitchedFace.tsx lines 785-867),
based at (segments-2, segments-2). -/
def cornerBR (N sH sV : ℕ) : List Tri :=
  if 1 < sH ∧ 1 < sV then
    [(cornerIdx N (N - 2) (N - 2) 2 2, cornerIdx N (N - 2) (N - 2) 1 1,
        cornerIdx N (N - 2) (N - 2) 2 0),
     (cornerIdx N (N - 2) (N - 2) 2 2, cornerIdx N (N - 2) (N - 2) 0 2,
        cornerIdx N (N - 2) (N - 2) 1 1),
     (cornerIdx N (N - 2) (N - 2) 0 2, cornerIdx N (N - 2) (N - 2) 0 1,
        cornerIdx N (N - 2) (N - 2) 1 1),
     (cornerIdx N (N - 2) (N - 2) 2 0, cornerIdx N (N - 2) (N - 2) 1 0,
        cornerIdx N (N - 2) (N - 2) 1 1)]
  else if sH = 1 ∧ sV = 1 then
    [0, 1].flatMap (fun dz =>
      [0, 1].flatMap (fun dx =>
        [(cornerIdx N (N - 2) (N - 2) dx dz, cornerIdx N (N - 2) (N - 2) dx (dz + 1),
            cornerIdx N (N - 2) (N - 2) (dx + 1) dz),
         (cornerIdx N (N - 2) (N - 2) (dx + 1) dz, cornerIdx N (N - 2) (N - 2) dx (dz + 1),
            cornerIdx N (N - 2) (N - 2) (dx + 1) (dz + 1))]))
  else if 1 < sH ∧ sV = 1 then
    [(cornerIdx N (N - 2) (N - 2) 0 2, cornerIdx N (N - 2) (N - 2) 1 1,
        cornerIdx N (N - 2) (N - 2) 2 2),
     (cornerIdx N (N - 2) (N - 2) 0 1, cornerIdx N (N - 2) (N - 2) 0 2,
        cornerIdx N (N - 2) (N - 2) 1 1),
     (cornerIdx N (N - 2) (N - 2) 2 1, cornerIdx N (N - 2) (N - 2) 2 2,
        cornerIdx N (N - 2) (N - 2) 1 1),
     (cornerIdx N (N - 2) (N - 2) 0 0, cornerIdx N (N - 2) (N - 2) 0 1,
        cornerIdx N (N - 2) (N - 2) 1 0),
     (cornerIdx N (N - 2) (N - 2) 1 0, cornerIdx N (N - 2) (N - 2) 0 1,
        cornerIdx N (N - 2) (N - 2) 1 1),
     (cornerIdx N (N - 2) (N - 2) 1 0, cornerIdx N (N - 2) (N - 2) 1 1,
        cornerIdx N (N - 2) (N - 2) 2 0),
     (cornerIdx N (N - 2) (N - 2) 2 0, cornerIdx N (N - 2) (N - 2) 1 1,
        cornerIdx N (N - 2) (N - 2) 2 1)]
  else if sH = 1 ∧ 1 < sV then
    [(cornerIdx N (N - 2) (N - 2) 2 0, cornerIdx N (N - 2) (N - 2) 2 2,
        cornerIdx N (N - 2) (N - 2) 1 1),
     (cornerIdx N (N - 2) (N - 2) 1 0, cornerIdx N (N - 2) (N - 2) 2 0,
        cornerIdx N (N - 2) (N - 2) 1 1),
     (cornerIdx N (N - 2) (N - 2) 1 2, cornerIdx N (N - 2) (N - 2) 2 2,
        cornerIdx N (N - 2) (N - 2) 1 1),
     (cornerIdx N (N - 2) (N - 2) 0 0, cornerIdx N (N - 2) (N - 2) 0 1,
        cornerIdx N (N - 2) (N - 2) 1 0),
     (cornerIdx N (N - 2) (N - 2) 1 0, cornerIdx N (N - 2) (N - 2) 0 1,
        cornerIdx N (N - 2) (N - 2) 1 1),
     (cornerIdx N (N - 2) (N - 2) 0 1, cornerIdx N (N - 2) (N - 2) 0 2,
        cornerIdx N (N - 2) (N - 2) 1 1),
     (cornerIdx N (N - 2) (N - 2) 1 1, cornerIdx N (N - 2) (N - 2) 0 2,
        cornerIdx N (N - 2) (N - 2) 1 2)]
  else []

/-- The full index pass of createStitchedGeometry after the discarded first
attempt is cleared (the code resets indices.length to 0 before this pass,
so only this pass reaches the geometry): interior, four edge strips, then
the four corner blocks in source order. -/
def stitchedTris (N topR botR leftR rightR : ℕ) (hole : Bool) (holeSize : ℚ) : List Tri :=
  interiorTris N hole holeSize ++ topTris N topR hole holeSize ++ bottomTris N botR ++
    leftTris N leftR ++ rightTris N rightR ++
    addCorner N 0 0 topR leftR ++ cornerTR N topR rightR ++
    cornerBL N botR leftR ++ cornerBR N botR rightR

/-- C2 (code bug): with segments 6, no hole and all four stitch ratios 1,
the emitted pass produces 80 triangles instead of the 2 * 36 = 72 of a
one-cover tessellation; in particular the two standard triangles of cell
(1,1) - the triple (8, 15, 9) is one of them - are emitted twice, once by
the interior pass and once by the top-left corner block, so that cell is
triangulated by two different passes. -/
theorem C2_corner_double_coverage :
    (stitchedTris 6 1 1 1 1 false 0).length = 80 ∧
    2 ≤ (stitchedTris 6 1 1 1 1 false 0).count ((8 : ℕ), (15 : ℕ), (9 : ℕ)) ∧
    ¬((stitchedTris 6 1 1 1 1 false 0).length = 2 * 6 ^ 2) := by
  refine ⟨by decide, by decide, by decide⟩

/-- The triangulation loop of processSubFace (src/unnamed/part_003 lines
272-289): for each row pair the two alternating quad triangles, then the
closing triangle of the row, each emitted only when its three vertex
indices are pairwise distinct. -/
def faceTriangles (grid : ℕ → ℕ → ℕ) (k : ℕ) : List Tri :=
  (List.range k).flatMap (fun r =>
    ((List.range r).flatMap (fun c =>
      (if grid r c ≠ grid (r + 1) c ∧ grid (r + 1) c ≠ grid (r + 1) (c + 1) ∧
          grid (r + 1) (c + 1) ≠ grid r c
        then [(grid r c, grid (r + 1) c, grid (r + 1) (c + 1))] else []) ++
      (if grid r c ≠ grid (r + 1) (c + 1) ∧ grid (r + 1) (c + 1) ≠ grid r (c + 1) ∧
          grid r (c + 1) ≠ grid r c
        then [(grid r c, grid (r + 1) (c + 1), grid r (c + 1))] else []))) ++
    (if grid r r ≠ grid (r + 1) r ∧ grid (r + 1) r ≠ grid (r + 1) (r + 1) ∧
        grid (r + 1) (r + 1) ≠ grid r r
      then [(grid r r, grid (r + 1) r, grid (r + 1) (r + 1))] else []))

/-- Three pairwise distinct vertex indices in a triangle. -/
def TriDistinct (t : Tri) : Prop := t.1 ≠ t.2.1 ∧ t.1 ≠ t.2.2 ∧ t.2.1 ≠ t.2.2

lemma faceTriangles_distinct (grid : ℕ → ℕ → ℕ) (k : ℕ) {t : Tri}
    (ht : t ∈ faceTriangles grid k) : TriDistinct t := by
  unfold faceTriangles at ht
  simp only [List.mem_flatMap, List.mem_append, List.mem_range] at ht
  obtain ⟨r, hr, ht⟩ := ht
  rcases ht with ht | ht
  · obtain ⟨c, hc, ht⟩ := ht
    rcases ht with ht | ht
    · split at ht
      · rename_i hg
        simp only [List.mem_singleton] at ht
        subst ht
        exact ⟨hg.1, hg.2.2.symm, hg.2.1⟩
      · exact absurd ht (List.not_mem_nil t)
    · split at ht
      · rename_i hg
        simp only [List.mem_singleton] at ht
        subst ht
        exact ⟨hg.1, hg.2.2.symm, hg.2.1⟩
      · exact absurd ht (List.not_mem_nil t)
  · split at ht
    · rename_i hg
      simp only [List.mem_singleton] at ht
      subst ht
      exact ⟨hg.1, hg.2.2.symm, hg.2.1⟩
    · exact absurd ht (List.not_mem_nil t)

lemma cellIdx_ne {N x1 z1 x2 z2 : ℕ} (h1 : x1 ≤ N) (h2 : x2 ≤ N)
    (h : ¬(x1 = x2 ∧ z1 = z2)) : cellIdx N x1 z1 ≠ cellIdx N x2 z2 := by
  intro he
  unfold cellIdx at he
  have e1 : (z1 * (N + 1) + x1) % (N + 1) = x1 := by
    rw [Nat.mul_comm, Nat.mul_add_mod, Nat.mod_eq_of_lt (Nat.lt_succ_of_le h1)]
  have e2 : (z2 * (N + 1) + x2) % (N + 1) = x2 := by
    rw [Nat.mul_comm, Nat.mul_add_mod, Nat.mod_eq_of_lt (Nat.lt_succ_of_le h2)]
  have hx : x1 = x2 := by
    rw [← e1, he, e2]
  subst hx
  have hz : z1 = z2 :=
    Nat.eq_of_mul_eq_mul_right (Nat.succ_pos N) (Nat.add_right_cancel he)
  exact h ⟨rfl, hz⟩

lemma cornerIdx_ne {N xB zB dx1 dz1 dx2 dz2 : ℕ} (h1 : xB + dx1 ≤ N) (h2 : xB + dx2 ≤ N)
    (h : ¬(dx1 = dx2 ∧ dz1 = dz2)) :
    cornerIdx N xB zB dx1 dz1 ≠ cornerIdx N xB zB dx2 dz2 :=
  cellIdx_ne h1 h2 (by omega)

lemma mem_jsRange {a b x : ℕ} (h : x ∈ jsRange a b) : a ≤ x ∧ x < b := by
  unfold jsRange at h
  simp only [List.mem_map, List.mem_range] at h
  obtain ⟨i, hi, rfl⟩ := h
  omega

lemma mem_jsRange2 {a b x : ℕ} (h : x ∈ jsRange2 a b) : a ≤ x ∧ x < b := by
  unfold jsRange2 at h
  simp only [List.mem_map, List.mem_range] at h
  obtain ⟨i, hi, rfl⟩ := h
  omega

lemma interiorTris_distinct {N : ℕ} {hole : Bool} {hs : ℚ} {t : Tri}
    (ht : t ∈ interiorTris N hole hs) : TriDistinct t := by
  unfold interiorTris at ht
  simp only [List.mem_flatMap] at ht
  obtain ⟨z, hz, x, hx, ht⟩ := ht
  have hz2 := mem_jsRange hz
  have hx2 := mem_jsRange hx
  split at ht
  · exact absurd ht (List.not_mem_nil t)
  · unfold cellQuad at ht
    simp only [List.mem_cons, List.not_mem_nil, or_false] at ht
    rcases ht with rfl | rfl <;>
      exact ⟨cellIdx_ne (by omega) (by omega) (by omega),
        cellIdx_ne (by omega) (by omega) (by omega),
        cellIdx_ne (by omega) (by omega) (by omega)⟩

lemma topTris_distinct {N topR : ℕ} {hole : Bool} {hs : ℚ} {t : Tri}
    (ht : t ∈ topTris N topR hole hs) : TriDistinct t := by
  unfold topTris at ht
  split at ht
  · simp only [List.mem_flatMap] at ht
    obtain ⟨x, hx, ht⟩ := ht
    have hx2 := mem_jsRange2 hx
    split at ht
    · exact absurd ht (List.not_mem_nil t)
    · simp only [List.mem_cons, List.not_mem_nil, or_false] at ht
      rcases ht with rfl | rfl | rfl <;>
        exact ⟨cellIdx_ne (by omega) (by omega) (by omega),
          cellIdx_ne (by omega) (by omega) (by omega),
          cellIdx_ne (by omega) (by omega) (by omega)⟩
  · simp only [List.mem_flatMap] at ht
    obtain ⟨x, hx, ht⟩ := ht
    have hx2 := mem_jsRange hx
    split at ht
    · exact absurd ht (List.not_mem_nil t)
    · unfold cellQuad at ht
      simp only [List.mem_cons, List.not_mem_nil, or_false] at ht
      rcases ht with rfl | rfl <;>
        exact ⟨cellIdx_ne (by omega) (by omega) (by omega),
          cellIdx_ne (by omega) (by omega) (by omega),
          cellIdx_ne (by omega) (by omega) (by omega)⟩

lemma bottomTris_distinct {N botR : ℕ} {t : Tri} (ht : t ∈ bottomTris N botR) :
    TriDistinct t := by
  unfold bottomTris at ht
  split at ht
  · simp only [List.mem_flatMap] at ht
    obtain ⟨x, hx, ht⟩ := ht
    have hx2 := mem_jsRange2 hx
    simp only [List.mem_cons, List.not_mem_nil, or_false] at ht
    rcases ht with rfl | rfl | rfl <;>
      exact ⟨cellIdx_ne (by omega) (by omega) (by omega),
        cellIdx_ne (by omega) (by omega) (by omega),
        cellIdx_ne (by omega) (by omega) (by omega)⟩
  · simp only [List.mem_flatMap] at ht
    obtain ⟨x, hx, ht⟩ := ht
    have hx2 := mem_jsRange hx
    unfold cellQuad at ht
    simp only [List.mem_cons, List.not_mem_nil, or_false] at ht
    rcases ht with rfl | rfl <;>
      exact ⟨cellIdx_ne (by omega) (by omega) (by omega),
        cellIdx_ne (by omega) (by omega) (by omega),
        cellIdx_ne (by omega) (by omega) (by omega)⟩

lemma leftTris_distinct {N leftR : ℕ} {t : Tri} (ht : t ∈ leftTris N leftR) :
    TriDistinct t := by
  unfold leftTris at ht
  split at ht
  · simp only [List.mem_flatMap] at ht
    obtain ⟨z, hz, ht⟩ := ht
    have hz2 := mem_jsRange2 hz
    simp only [List.mem_cons, List.not_mem_nil, or_false] at ht
    rcases ht with rfl | rfl | rfl <;>
      exact ⟨cellIdx_ne (by omega) (by omega) (by omega),
        cellIdx_ne (by omega) (by omega) (by omega),
        cellIdx_ne (by omega) (by omega) (by omega)⟩
  · simp only [List.mem_flatMap] at ht
    obtain ⟨z, hz, ht⟩ := ht
    have hz2 := mem_jsRange hz
    unfold cellQuad at ht
    simp only [List.mem_cons, List.not_mem_nil, or_false] at ht
    rcases ht with rfl | rfl <;>
      exact ⟨cellIdx_ne (by omega) (by omega) (by omega),
        cellIdx_ne (by omega) (by omega) (by omega),
        cellIdx_ne (by omega) (by omega) (by omega)⟩

lemma rightTris_distinct {N rightR : ℕ} (hN : 6 ≤ N) {t : Tri}
    (ht : t ∈ rightTris N rightR) : TriDistinct t := by
  unfold rightTris at ht
  split at ht
  · simp only [List.mem_flatMap] at ht
    obtain ⟨z, hz, ht⟩ := ht
    have hz2 := mem_jsRange2 hz
    simp only [List.mem_cons, List.not_mem_nil, or_false] at ht
    rcases ht with rfl | rfl | rfl <;>
      exact ⟨cellIdx_ne (by omega) (by omega) (by omega),
        cellIdx_ne (by omega) (by omega) (by omega),
        cellIdx_ne (by omega) (by omega) (by omega)⟩
  · simp only [List.mem_flatMap] at ht
    obtain ⟨z, hz, ht⟩ := ht
    have hz2 := mem_jsRange hz
    unfold cellQuad at ht
    simp only [List.mem_cons, List.not_mem_nil, or_false] at ht
    rcases ht with rfl | rfl <;>
      exact ⟨cellIdx_ne (by omega) (by omega) (by omega),
        cellIdx_ne (by omega) (by omega) (by omega),
        cellIdx_ne (by omega) (by omega) (by omega)⟩

lemma addCorner_distinct {N xB zB sH sV : ℕ} (hx : xB + 2 ≤ N) {t : Tri}
    (ht : t ∈ addCorner N xB zB sH sV) : TriDistinct t := by
  unfold addCorner at ht
  split_ifs at ht
  · simp only [List.mem_cons, List.not_mem_nil, or_false] at ht
    rcases ht with rfl | rfl | rfl | rfl <;>
      exact ⟨cornerIdx_ne (by omega) (by omega) (by omega),
        cornerIdx_ne (by omega) (by omega) (by omega),
        cornerIdx_ne (by omega) (by omega) (by omega)⟩
  · simp only [List.mem_flatMap, List.mem_cons, List.not_mem_nil, or_false] at ht
    obtain ⟨dz, hdz, dx, hdx, ht⟩ := ht
    rcases hdz with rfl | rfl <;> rcases hdx with rfl | rfl <;>
      rcases ht with rfl | rfl <;>
      exact ⟨cornerIdx_ne (by omega) (by omega) (by omega),
        cornerIdx_ne (by omega) (by omega) (by omega),
        cornerIdx_ne (by omega) (by omega) (by omega)⟩
  · simp only [List.mem_cons, List.not_mem_nil, or_false] at ht
    rcases ht with rfl | rfl | rfl | rfl | rfl | rfl | rfl <;>
      exact ⟨cornerIdx_ne (by omega) (by omega) (by omega),
        cornerIdx_ne (by omega) (by omega) (by omega),
        cornerIdx_ne (by omega) (by omega) (by omega)⟩
  · simp only [List.mem_cons, List.not_mem_nil, or_false] at ht
    rcases ht with rfl | rfl | rfl | rfl | rfl | rfl | rfl <;>
      exact ⟨cornerIdx_ne (by omega) (by omega) (by omega),
        cornerIdx_ne (by omega) (by omega) (by omega),
        cornerIdx_ne (by omega) (by omega) (by omega)⟩
  · exact absurd ht (List.not_mem_nil t)

lemma cornerTR_distinct {N sH sV : ℕ} (hN : 6 ≤ N) {t : Tri}
    (ht : t ∈ cornerTR N sH sV) : TriDistinct t := by
  unfold cornerTR at ht
  split_ifs at ht
  · simp only [List.mem_cons, List.not_mem_nil, or_false] at ht
    rcases ht with rfl | rfl | rfl | rfl | rfl <;>
      exact ⟨cornerIdx_ne (by omega) (by omega) (by omega),
        cornerIdx_ne (by omega) (by omega) (by omega),
        cornerIdx_ne (by omega) (by omega) (by omega)⟩
  · simp only [List.mem_flatMap, List.mem_cons, List.not_mem_nil, or_false] at ht
    obtain ⟨dz, hdz, dx, hdx, ht⟩ := ht
    rcases hdz with rfl | rfl <;> rcases hdx with rfl | rfl <;>
      rcases ht with rfl | rfl <;>
      exact ⟨cornerIdx_ne (by omega) (by omega) (by omega),
        cornerIdx_ne (by omega) (by omega) (by omega),
        cornerIdx_ne (by omega) (by omega) (by omega)⟩
  · simp only [List.mem_cons, List.not_mem_nil, or_false] at ht
    rcases ht with rfl | rfl | rfl | rfl | rfl | rfl | rfl <;>
      exact ⟨cornerIdx_ne (by omega) (by omega) (by omega),
        cornerIdx_ne (by omega) (by omega) (by omega),
        cornerIdx_ne (by omega) (by omega) (by omega)⟩
  · simp only [List.mem_cons, List.not_mem_nil, or_false] at ht
    rcases ht with rfl | rfl | rfl | rfl | rfl | rfl | rfl <;>
      exact ⟨cornerIdx_ne (by omega) (by omega) (by omega),
        cornerIdx_ne (by omega) (by omega) (by omega),
        cornerIdx_ne (by omega) (by omega) (by omega)⟩
  · exact absurd ht (List.not_mem_nil t)

lemma cornerBL_distinct {N sH sV : ℕ} (hN : 6 ≤ N) {t : Tri}
    (ht : t ∈ cornerBL N sH sV) : TriDistinct t := by
  unfold cornerBL at ht
  split_ifs at ht
  · simp only [List.mem_cons, List.not_mem_nil, or_false] at ht
    rcases ht with rfl | rfl | rfl | rfl <;>
      exact ⟨cornerIdx_ne (by omega) (by omega) (by omega),
        cornerIdx_ne (by omega) (by omega) (by omega),
        cornerIdx_ne (by omega) (by omega) (by omega)⟩
  · simp only [List.mem_flatMap, List.mem_cons, List.not_mem_nil, or_false] at ht
    obtain ⟨dz, hdz, dx, hdx, ht⟩ := ht
    rcases hdz with rfl | rfl <;> rcases hdx with rfl | rfl <;>
      rcases ht with rfl | rfl <;>
      exact ⟨cornerIdx_ne (by omega) (by omega) (by omega),
        cornerIdx_ne (by omega) (by omega) (by omega),
        cornerIdx_ne (by omega) (by omega) (by omega)⟩
  · simp only [List.mem_cons, List.not_mem_nil, or_false] at ht
    rcases ht with rfl | rfl | rfl | rfl | rfl | rfl | rfl <;>
      exact ⟨cornerIdx_ne (by omega) (by omega) (by omega),
        cornerIdx_ne (by omega) (by omega) (by omega),
        cornerIdx_ne (by omega) (by omega) (by omega)⟩
  · simp only [List.mem_cons, List.not_mem_nil, or_false] at ht
    rcases ht with rfl | rfl | rfl | rfl | rfl | rfl | rfl <;>
      exact ⟨cornerIdx_ne (by omega) (by omega) (by omega),
        cornerIdx_ne (by omega) (by omega) (by omega),
        cornerIdx_ne (by omega) (by omega) (by omega)⟩
  · exact absurd ht (List.not_mem_nil t)

lemma cornerBR_distinct {N sH sV : ℕ} (hN : 6 ≤ N) {t : Tri}
    (ht : t ∈ cornerBR N sH sV) : TriDistinct t := by
  unfold cornerBR at ht
  split_ifs at ht
  · simp only [List.mem_cons, List.not_mem_nil, or_false] at ht
    rcases ht with rfl | rfl | rfl | rfl <;>
      exact ⟨cornerIdx_ne (by omega) (by omega) (by omega),
        cornerIdx_ne (by omega) (by omega) (by omega),
        cornerIdx_ne (by omega) (by omega) (by omega)⟩
  · simp only [List.mem_flatMap, List.mem_cons, List.not_mem_nil, or_false] at ht
    obtain ⟨dz, hdz, dx, hdx, ht⟩ := ht
    rcases hdz with rfl | rfl <;> rcases hdx with rfl | rfl <;>
      rcases ht with rfl | rfl <;>
      exact ⟨cornerIdx_ne (by omega) (by omega) (by omega),
        cornerIdx_ne (by omega) (by omega) (by omega),
        cornerIdx_ne (by omega) (by omega) (by omega)⟩
  · simp only [List.mem_cons, List.not_mem_nil, or_false] at ht
    rcases ht with rfl | rfl | rfl | rfl | rfl | rfl | rfl <;>
      exact ⟨cornerIdx_ne (by omega) (by omega) (by omega),
        cornerIdx_ne (by omega) (by omega) (by omega),
        cornerIdx_ne (by omega) (by omega) (by omega)⟩
  · simp only [List.mem_cons, List.not_mem_nil, or_false] at ht
    rcases ht with rfl | rfl | rfl | rfl | rfl | rfl | rfl <;>
      exact ⟨cornerIdx_ne (by omega) (by omega) (by omega),
        cornerIdx_ne (by omega) (by omega) (by omega),
        cornerIdx_ne (by omega) (by omega) (by omega)⟩
  · exact absurd ht (List.not_mem_nil t)

/-- C9: every triangle emitted by the triangular icosphere generator (whose
triangulation loop only pushes a candidate when its indices are pairwise
distinct, silently dropping the rest) and every triangle emitted by the
quad grid stitcher (for any segment count of at least 6, any stitch ratios
and any hole configuration) has three pairwise distinct vertex indices. -/
theorem C9_no_degenerate_triangles :
    (∀ (grid : ℕ → ℕ → ℕ) (k : ℕ), ∀ t ∈ faceTriangles grid k, TriDistinct t) ∧
    (∀ (N topR botR leftR rightR : ℕ) (hole : Bool) (holeSize : ℚ), 6 ≤ N →
      ∀ t ∈ stitchedTris N topR botR leftR rightR hole holeSize, TriDistinct t) := by
  constructor
  · intro grid k t ht
    exact faceTriangles_distinct grid k ht
  · intro N topR botR leftR rightR hole holeSize hN t ht
    unfold stitchedTris at ht
    simp only [List.mem_append] at ht
    rcases ht with ((((((((ht | ht) | ht) | ht) | ht) | ht) | ht) | ht) | ht)
    · exact interiorTris_distinct ht
    · exact topTris_distinct ht
    · exact bottomTris_distinct ht
    · exact leftTris_distinct ht
    · exact rightTris_distinct hN ht
    · exact addCorner_distinct (by omega) ht
    · exact cornerTR_distinct hN ht
    · exact cornerBL_distinct hN ht
    · exact cornerBR_distinct hN ht

/-- Witness for C9 at concrete inputs: the first emitted triangle of a
two-row triangular grid, and an interior triangle of the segments-6
stitcher with all ratios 1. -/
theorem C9_no_degenerate_triangles_w :
    TriDistinct ((0 : ℕ), 10, 11) ∧ TriDistinct ((8 : ℕ), 15, 9) := by
  constructor
  · exact C9_no_degenerate_triangles.1 (fun r c => 10 * r + c) 2 _ (by decide)
  · exact C9_no_degenerate_triangles.2 6 1 1 1 1 false 0 (by norm_num) _ (by decide)
